import Mathlib

/-!
Verification of the answer-evaluation pipeline of `record-answer.tsx`
(Interview-Assistant).  The component's pure logic is shallowly embedded:

* `Json` / `jsonParse` model the ECMAScript `JSON.parse` builtin used by
  the source (strict JSON grammar: objects, arrays, strings with escapes,
  numbers with optional fraction/exponent, the three literals).
* `cleanJsonResponse` is the three-tier fallback parser of the source.
* `generateResult` is the parse-then-validate step of the evaluation client.
* `CompState` + the handler functions model the React component's state
  transitions (`recordUserAnswer`, `recordNewAnswer`, `saveUserAnswer`).
* A small event-trace machine models the interleaving of speech-engine
  result delivery with the stop click, for the temporal ordering claim.
-/

namespace RecordAnswer

/-- JSON values as produced by `JSON.parse`.  Numbers are modelled as
rationals (every JSON numeral denotes a rational). -/
inductive Json where
  | null : Json
  | bool (b : Bool) : Json
  | num (q : Rat) : Json
  | str (s : String) : Json
  | arr (elems : List Json) : Json
  | obj (fields : List (String × Json)) : Json
  deriving Repr

/-- Decidable equality on `Json` (manual, because of the nested lists). -/
def Json.beq : Json → Json → Bool
  | .null, .null => true
  | .bool a, .bool b => a == b
  | .num a, .num b => a == b
  | .str a, .str b => a == b
  | .arr a, .arr b => beqList a b
  | .obj a, .obj b => beqFields a b
  | _, _ => false
where
  beqList : List Json → List Json → Bool
    | [], [] => true
    | x :: xs, y :: ys => Json.beq x y && beqList xs ys
    | _, _ => false
  beqFields : List (String × Json) → List (String × Json) → Bool
    | [], [] => true
    | (k, v) :: xs, (l, w) :: ys => k == l && Json.beq v w && beqFields xs ys
    | _, _ => false

mutual

theorem Json.beq_eq : ∀ a b : Json, Json.beq a b = true → a = b
  | .null, .null, _ => rfl
  | .bool a, .bool b, h => by
      simp only [Json.beq] at h; exact congrArg Json.bool (eq_of_beq h)
  | .num a, .num b, h => by
      simp only [Json.beq] at h; exact congrArg Json.num (eq_of_beq h)
  | .str a, .str b, h => by
      simp only [Json.beq] at h; exact congrArg Json.str (eq_of_beq h)
  | .arr a, .arr b, h => by
      simp only [Json.beq] at h
      exact congrArg Json.arr (Json.beqList_eq a b h)
  | .obj a, .obj b, h => by
      simp only [Json.beq] at h
      exact congrArg Json.obj (Json.beqFields_eq a b h)

theorem Json.beqList_eq : ∀ a b : List Json, Json.beq.beqList a b = true → a = b
  | [], [], _ => rfl
  | x :: xs, y :: ys, h => by
      simp only [Json.beq.beqList, Bool.and_eq_true] at h
      rw [Json.beq_eq x y h.1, Json.beqList_eq xs ys h.2]

theorem Json.beqFields_eq :
    ∀ a b : List (String × Json), Json.beq.beqFields a b = true → a = b
  | [], [], _ => rfl
  | (k, v) :: xs, (l, w) :: ys, h => by
      simp only [Json.beq.beqFields, Bool.and_eq_true] at h
      obtain ⟨⟨hk, hv⟩, hs⟩ := h
      rw [eq_of_beq hk, Json.beq_eq v w hv, Json.beqFields_eq xs ys hs]

end

mutual

theorem Json.beq_refl : ∀ a : Json, Json.beq a a = true
  | .null => rfl
  | .bool a => by simp [Json.beq]
  | .num a => by simp [Json.beq]
  | .str a => by simp [Json.beq]
  | .arr a => by simp only [Json.beq]; exact Json.beqList_refl a
  | .obj a => by simp only [Json.beq]; exact Json.beqFields_refl a

theorem Json.beqList_refl : ∀ a : List Json, Json.beq.beqList a a = true
  | [] => rfl
  | x :: xs => by
      simp only [Json.beq.beqList, Bool.and_eq_true]
      exact ⟨Json.beq_refl x, Json.beqList_refl xs⟩

theorem Json.beqFields_refl : ∀ a : List (String × Json), Json.beq.beqFields a a = true
  | [] => rfl
  | (k, v) :: xs => by
      simp only [Json.beq.beqFields, Bool.and_eq_true]
      exact ⟨⟨beq_self_eq_true k, Json.beq_refl v⟩, Json.beqFields_refl xs⟩

end

instance : DecidableEq Json := fun a b =>
  if h : Json.beq a b = true then
    .isTrue (Json.beq_eq a b h)
  else
    .isFalse (fun he => h (he ▸ Json.beq_refl a))

/-- The four JSON whitespace characters accepted by `JSON.parse`. -/
def isJsonWs (c : Char) : Bool :=
  c = ' ' || c = '\t' || c = '\n' || c = '\r'

def skipWs (cs : List Char) : List Char :=
  cs.dropWhile isJsonWs

/-- Value of a hexadecimal digit, if any. -/
def hexVal (c : Char) : Option Nat :=
  if '0' ≤ c ∧ c ≤ '9' then some (c.toNat - '0'.toNat)
  else if 'a' ≤ c ∧ c ≤ 'f' then some (c.toNat - 'a'.toNat + 10)
  else if 'A' ≤ c ∧ c ≤ 'F' then some (c.toNat - 'A'.toNat + 10)
  else none

/-- Parse the body of a JSON string (the opening quote already consumed),
handling the escape sequences of the JSON grammar.  Raw control characters
below U+0020 are rejected, as `JSON.parse` rejects them. -/
def parseStringBody : List Char → List Char → Except String (String × List Char)
  | acc, '"' :: rest => .ok (String.mk acc.reverse, rest)
  | acc, '\\' :: e :: rest =>
    match e with
    | '"' => parseStringBody ('"' :: acc) rest
    | '\\' => parseStringBody ('\\' :: acc) rest
    | '/' => parseStringBody ('/' :: acc) rest
    | 'b' => parseStringBody (Char.ofNat 8 :: acc) rest
    | 'f' => parseStringBody (Char.ofNat 12 :: acc) rest
    | 'n' => parseStringBody ('\n' :: acc) rest
    | 'r' => parseStringBody ('\r' :: acc) rest
    | 't' => parseStringBody ('\t' :: acc) rest
    | 'u' =>
      match rest with
      | h1 :: h2 :: h3 :: h4 :: rest2 =>
        match hexVal h1, hexVal h2, hexVal h3, hexVal h4 with
        | some a, some b, some c, some d =>
          parseStringBody (Char.ofNat (((a * 16 + b) * 16 + c) * 16 + d) :: acc) rest2
        | _, _, _, _ => .error "Bad Unicode escape"
      | _ => .error "Bad Unicode escape"
    | _ => .error "Bad escaped character in JSON"
  | acc, c :: rest =>
    if c.toNat < 32 then .error "Bad control character in string literal"
    else parseStringBody (c :: acc) rest
  | _, [] => .error "Unterminated string in JSON"

/-- Take a maximal run of decimal digits, returning its value and length. -/
def takeDigits : List Char → Nat → Nat → (Nat × Nat × List Char)
  | c :: rest, acc, len =>
    if '0' ≤ c ∧ c ≤ '9' then
      takeDigits rest (acc * 10 + (c.toNat - '0'.toNat)) (len + 1)
    else (acc, len, c :: rest)
  | [], acc, len => (acc, len, [])

/-- Parse a JSON number (strict grammar: optional minus, integer part with
no leading zeros, optional fraction, optional exponent), as a rational. -/
def parseNumber (cs : List Char) : Except String (Rat × List Char) :=
  let (sign, cs1) : Int × List Char :=
    match cs with
    | '-' :: rest => (-1, rest)
    | _ => (1, cs)
  match cs1 with
  | c :: _ =>
    if ¬('0' ≤ c ∧ c ≤ '9') then .error "Unexpected token in JSON"
    else
      let (m, mlen, cs2) := takeDigits cs1 0 0
      -- strict JSON: "0" is fine but "01" has a forbidden leading zero
      if c = '0' ∧ mlen > 1 then .error "Unexpected number in JSON"
      else
        let (f, k, cs3) : Nat × Nat × List Char :=
          match cs2 with
          | '.' :: rest =>
            let (f, k, cs3) := takeDigits rest 0 0
            (f, k, cs3)
          | _ => (0, 0, cs2)
        -- a '.' must be followed by at least one digit
        if (match cs2 with | '.' :: _ => true | _ => false) && k == 0 then
          .error "Unterminated fractional number in JSON"
        else
          let hasExpChar : Bool := match cs3 with
            | 'e' :: _ => true | 'E' :: _ => true | _ => false
          if hasExpChar then
            let cs4 := cs3.drop 1
            let (esign, cs5) : Int × List Char :=
              match cs4 with
              | '+' :: rest => (1, rest)
              | '-' :: rest => (-1, rest)
              | _ => (1, cs4)
            let (e, elen, cs6) := takeDigits cs5 0 0
            if elen = 0 then .error "Exponent part is missing a number in JSON"
            else
              let mantissa : Int := sign * (m * 10 ^ k + f)
              let expo : Int := esign * e - k
              let q : Rat :=
                if 0 ≤ expo then (mantissa * 10 ^ expo.toNat : Int)
                else mkRat mantissa (10 ^ (-expo).toNat)
              .ok (q, cs6)
          else
            let mantissa : Int := sign * (m * 10 ^ k + f)
            let q : Rat :=
              if k = 0 then (mantissa : Rat)
              else mkRat mantissa (10 ^ k)
            .ok (q, cs3)
  | [] => .error "Unexpected end of JSON input"

/-- Does `cs` start with the literal word `w`? -/
def startsWithWord : List Char → List Char → Option (List Char)
  | _, [] => none
  | cs, w =>
    if cs.take w.length = w then some (cs.drop w.length) else none

mutual

/-- Parse one JSON value (leading whitespace skipped), fuel-indexed. -/
def parseValue : Nat → List Char → Except String (Json × List Char)
  | 0, _ => .error "Too much nesting in JSON"
  | fuel + 1, cs =>
    match skipWs cs with
    | [] => .error "Unexpected end of JSON input"
    | c :: rest =>
      if c = '"' then
        match parseStringBody [] rest with
        | .ok (s, rest2) => .ok (.str s, rest2)
        | .error e => .error e
      else if c = '{' then
        match skipWs rest with
        | '}' :: rest2 => .ok (.obj [], rest2)
        | other => parseMembers fuel other []
      else if c = '[' then
        match skipWs rest with
        | ']' :: rest2 => .ok (.arr [], rest2)
        | other => parseElems fuel other []
      else
        match startsWithWord (c :: rest) ['t', 'r', 'u', 'e'] with
        | some rest2 => .ok (.bool true, rest2)
        | none =>
        match startsWithWord (c :: rest) ['f', 'a', 'l', 's', 'e'] with
        | some rest2 => .ok (.bool false, rest2)
        | none =>
        match startsWithWord (c :: rest) ['n', 'u', 'l', 'l'] with
        | some rest2 => .ok (.null, rest2)
        | none =>
          match parseNumber (c :: rest) with
          | .ok (q, rest2) => .ok (.num q, rest2)
          | .error e => .error e

/-- Parse the members of a JSON object, after `{` (not before `}`). -/
def parseMembers :
    Nat → List Char → List (String × Json) → Except String (Json × List Char)
  | 0, _, _ => .error "Too much nesting in JSON"
  | fuel + 1, cs, acc =>
    match skipWs cs with
    | '"' :: rest =>
      match parseStringBody [] rest with
      | .error e => .error e
      | .ok (key, rest2) =>
        match skipWs rest2 with
        | ':' :: rest3 =>
          match parseValue fuel rest3 with
          | .error e => .error e
          | .ok (v, rest4) =>
            match skipWs rest4 with
            | ',' :: rest5 => parseMembers fuel rest5 (acc ++ [(key, v)])
            | '}' :: rest5 => .ok (.obj (acc ++ [(key, v)]), rest5)
            | _ => .error "Expected comma or closing brace in JSON object"
        | _ => .error "Expected colon in JSON object"
    | _ => .error "Expected property name in JSON object"

/-- Parse the elements of a JSON array, after `[` (not before `]`). -/
def parseElems : Nat → List Char → List Json → Except String (Json × List Char)
  | 0, _, _ => .error "Too much nesting in JSON"
  | fuel + 1, cs, acc =>
    match parseValue fuel cs with
    | .error e => .error e
    | .ok (v, rest) =>
      match skipWs rest with
      | ',' :: rest2 => parseElems fuel rest2 (acc ++ [v])
      | ']' :: rest2 => .ok (.arr (acc ++ [v]), rest2)
      | _ => .error "Expected comma or closing bracket in JSON array"

end

/-- Model of ECMAScript `JSON.parse`: parse one value, then require only
whitespace to follow. -/
def jsonParse (s : String) : Except String Json :=
  match parseValue (s.length + 1) s.data with
  | .error e => .error e
  | .ok (v, rest) =>
    match skipWs rest with
    | [] => .ok v
    | _ => .error "Unexpected non-whitespace character after JSON"

def isErr {ε α : Type} : Except ε α → Bool
  | .error _ => true
  | .ok _ => false

instance {ε α : Type} [DecidableEq ε] [DecidableEq α] : DecidableEq (Except ε α) :=
  fun a b =>
  match a, b with
  | .ok x, .ok y =>
    if h : x = y then .isTrue (by rw [h]) else .isFalse (fun he => h (Except.ok.inj he))
  | .error x, .error y =>
    if h : x = y then .isTrue (by rw [h]) else .isFalse (fun he => h (Except.error.inj he))
  | .ok _, .error _ => .isFalse (fun he => Except.noConfusion he)
  | .error _, .ok _ => .isFalse (fun he => Except.noConfusion he)

/-! ## The three-tier response parser (`cleanJsonResponse`) -/

/-- The backtick character (U+0060). -/
def tick : Char := Char.ofNat 96

/-- The opening curly brace (U+007B). -/
def lbrace : Char := Char.ofNat 123

/-- The closing curly brace (U+007D). -/
def rbrace : Char := Char.ofNat 125

/-- Model of the global regex replace that deletes every occurrence of a
triple-backtick fence labelled `json`, a bare triple-backtick fence, or a
single backtick, scanning left to right with ordered alternation
(`fence-json`, then `fence`, then single tick) exactly as the source's
alternation does. -/
def fenceMatchLen (cs : List Char) : Nat :=
  if cs.take 7 = [tick, tick, tick, 'j', 's', 'o', 'n'] then 7
  else if cs.take 3 = [tick, tick, tick] then 3
  else if cs.take 1 = [tick] then 1
  else 0

/-- Fuel-indexed worker for the fence strip; every step consumes at least
one character, so `cs.length` fuel always suffices. -/
def stripFenceAux : Nat → List Char → List Char
  | 0, cs => cs
  | _ + 1, [] => []
  | fuel + 1, c :: rest =>
    let n := fenceMatchLen (c :: rest)
    if n = 0 then c :: stripFenceAux fuel rest
    else stripFenceAux fuel ((c :: rest).drop n)

def stripFenceChars (cs : List Char) : List Char :=
  stripFenceAux cs.length cs

/-- Characters removed by the ECMAScript `String.prototype.trim` (whitespace
and line terminators; the common ones are modelled). -/
def isJsTrimWs (c : Char) : Bool :=
  c = ' ' || c = '\t' || c = '\n' || c = '\r' ||
  c = Char.ofNat 11 || c = Char.ofNat 12 || c = Char.ofNat 0xA0 ||
  c = Char.ofNat 0xFEFF || c = Char.ofNat 0x2028 || c = Char.ofNat 0x2029

/-- `trim()` on a character list: drop the whitespace at both ends. -/
def jsTrim (cs : List Char) : List Char :=
  ((cs.dropWhile isJsTrimWs).reverse.dropWhile isJsTrimWs).reverse

/-- Tier 2's cleaned text: fences removed, then trimmed. -/
def cleanText (s : String) : String :=
  String.mk (jsTrim (stripFenceChars s.data))

/-- The first match of the lazy pattern «opening brace, any characters,
closing brace» in the text: the substring running from the first opening
brace to the first closing brace after it, if both exist.  (If the first
opening brace has no closing brace after it, no later one has either, so
the whole search fails.) -/
def extractBrace (cs : List Char) : Option (List Char) :=
  match cs.dropWhile (fun c => c ≠ lbrace) with
  | [] => none
  | b :: tail =>
    if tail.contains rbrace then
      some (b :: tail.takeWhile (fun c => c ≠ rbrace) ++ [rbrace])
    else none

/-- A terminal parse failure.  The source logs the offending raw response
text (`console.error("JSON parsing failed:", responseText)`) and throws an
error whose message extends the last tier's message; both observables are
carried here. -/
structure ParseFail where
  raw : String
  msg : String
  deriving Repr, DecidableEq

/-- The source's `cleanJsonResponse`: try a direct parse; on failure strip
code fences and retry; on failure extract the first brace-delimited
substring and parse it; otherwise fail, reporting the raw text. -/
def cleanJsonResponse (responseText : String) : Except ParseFail Json :=
  match jsonParse responseText with
  | .ok v => .ok v
  | .error _ =>
    match jsonParse (cleanText responseText) with
    | .ok v => .ok v
    | .error _ =>
      match extractBrace responseText.data with
      | some sub =>
        match jsonParse (String.mk sub) with
        | .ok v => .ok v
        | .error m => .error ⟨responseText, "Invalid JSON format: " ++ m⟩
      | none =>
        .error ⟨responseText, "Invalid JSON format: Could not extract valid JSON"⟩

/-! ## The evaluation client (`generateResult`) -/

/-- JavaScript property access `v?.key` on a parsed JSON value: only
objects have fields; a duplicated key resolves to its last occurrence, as
in `JSON.parse`. -/
def getField : Json → String → Option Json
  | .obj fields, key => ((fields.filter (fun kv => kv.1 = key)).getLast?).map (·.2)
  | _, _ => none

/-- The validated evaluation record (`interface AIResponse`). -/
structure AIResponse where
  ratings : Rat
  feedback : String
  deriving Repr, DecidableEq

/-- Failure kinds of `generateResult`: the rethrown parse failure from
`cleanJsonResponse`, or the «Invalid response structure» validation
failure. -/
inductive EvalError where
  | parseFailure (f : ParseFail) : EvalError
  | invalidStructure : EvalError
  deriving Repr, DecidableEq

/-- The source's `generateResult`, as a function of the raw text returned
by the generative-AI service: parse with `cleanJsonResponse`, then require
`typeof parsedResult?.ratings === "number"` and
`typeof parsedResult?.feedback === "string"`. -/
def generateResult (rawResponse : String) : Except EvalError AIResponse :=
  match cleanJsonResponse rawResponse with
  | .error f => .error (.parseFailure f)
  | .ok parsedResult =>
    match getField parsedResult "ratings", getField parsedResult "feedback" with
    | some (.num r), some (.str f) => .ok ⟨r, f⟩
    | _, _ => .error .invalidStructure

/-- The shape check of `generateResult` in isolation:
`typeof parsedResult?.ratings === "number" &&
 typeof parsedResult?.feedback === "string"`. -/
def validShape (j : Json) : Bool :=
  match getField j "ratings", getField j "feedback" with
  | some (.num _), some (.str _) => true
  | _, _ => false

/-- Tier 3 viewed on its own fails when either no brace-delimited
substring exists or the extracted substring does not parse. -/
def tier3Fails (s : String) : Bool :=
  match extractBrace s.data with
  | none => true
  | some sub => isErr (jsonParse (String.mk sub))

/-! ## Component state and handlers -/

/-- The `question` prop: the asked question and its reference answer. -/
structure Question where
  question : String
  answer : String
  deriving Repr, DecidableEq

/-- The component state the claims speak about: the `userAnswer` and
`aiResult` React state plus the speech hook's recording flag. -/
structure CompState where
  userAnswer : String
  aiResult : Option AIResponse
  isRecording : Bool
  deriving Repr, DecidableEq

/-- The source's `recordUserAnswer` taken in the `else` branch (invoked
while not recording): `startSpeechToText()` plus an informational toast.
No other state field is touched. -/
def recordUserAnswerStart (st : CompState) : CompState :=
  { st with isRecording := true }

/-- The source's `recordNewAnswer`, immediate effects: stop capture if it
is active, clear `userAnswer`, clear `aiResult`; the restart is deferred
behind the 300 ms grace timeout. -/
def recordNewAnswerImmediate (_st : CompState) : CompState :=
  { userAnswer := "", aiResult := none, isRecording := false }

/-- The state once `recordNewAnswer`'s deferred restart fires:
`startSpeechToText()` after the grace delay. -/
def recordNewAnswerAfterDelay (st : CompState) : CompState :=
  { recordNewAnswerImmediate st with isRecording := true }

/-! ## The answer store (`saveUserAnswer`) -/

/-- One persisted document of the `userAnswers` collection. -/
structure AnswerRecord where
  mockIdRef : String
  question : String
  correct_ans : String
  user_ans : String
  feedback : String
  rating : Rat
  userId : String
  createdAt : Nat
  deriving Repr, DecidableEq

/-- Outcome of one `saveUserAnswer` run, as signalled by its toasts. -/
inductive SaveOutcome where
  | noFeedback
  | alreadyAnswered
  | saved
  | persistFailed
  deriving Repr, DecidableEq

/-- Fault injection for the external document store: the query
(`getDocs`) or the insert (`addDoc`) may throw. -/
inductive PersistEnv where
  | ok
  | queryFails
  | insertFails
  deriving Repr, DecidableEq

structure SaveResult where
  state : CompState
  store : List AnswerRecord
  outcome : SaveOutcome
  deriving Repr, DecidableEq

/-- The existence-check predicate of the source's Firestore query:
equality on `userId`, `question` and `mockIdRef`. -/
def matchesKey (userId question mockIdRef : String) (r : AnswerRecord) : Bool :=
  r.userId = userId && r.question = question && r.mockIdRef = mockIdRef

/-- The source's `saveUserAnswer`: reject when no `aiResult` is held;
query for an existing record with the same (userId, question, interviewId)
key; if any match exists report «Already Answered» and write nothing;
otherwise insert the new record (server-assigned `createdAt`), clear
`userAnswer`/`aiResult` and stop any active recording.  A query or insert
fault lands in the `catch` branch, which only reports the error. -/
def saveUserAnswer (userId interviewId : String) (question : Question)
    (st : CompState) (store : List AnswerRecord) (env : PersistEnv)
    (now : Nat) : SaveResult :=
  match st.aiResult with
  | none => ⟨st, store, .noFeedback⟩
  | some aiResult =>
    match env with
    | .queryFails => ⟨st, store, .persistFailed⟩
    | _ =>
      let querySnap := store.filter (matchesKey userId question.question interviewId)
      if ¬querySnap.isEmpty then ⟨st, store, .alreadyAnswered⟩
      else
        match env with
        | .insertFails => ⟨st, store, .persistFailed⟩
        | _ =>
          let newDoc : AnswerRecord :=
            { mockIdRef := interviewId
              question := question.question
              correct_ans := question.answer
              user_ans := st.userAnswer
              feedback := aiResult.feedback
              rating := aiResult.ratings
              userId := userId
              createdAt := now }
          ⟨{ userAnswer := "", aiResult := none, isRecording := false },
           store ++ [newDoc], .saved⟩

/-! ## Transcript aggregation and the capture/evaluate trace machine -/

/-- One entry of the speech hook's `results` array: with
`useLegacyResults: false` entries are result objects carrying a
transcript, but the source still guards against legacy plain-string
entries (`typeof result !== "string"`). -/
inductive SpeechResult where
  | legacy (s : String)
  | result (transcript : String)
  deriving Repr, DecidableEq

/-- A speech-recognition segment at the engine boundary: its text and
whether the engine has finalized it. -/
structure TranscriptSegment where
  text : String
  isFinal : Bool
  deriving Repr, DecidableEq

/-- The hook's `results` array for a delivered segment sequence: final
segments are appended in arrival order as result objects; interim
segments never enter `results` (they surface only as `interimResult`). -/
def resultsOf (segs : List TranscriptSegment) : List SpeechResult :=
  segs.filterMap (fun s => if s.isFinal then some (.result s.text) else none)

/-- The source's aggregation effect: filter out plain-string entries, map
each remaining result to its transcript, join with single spaces. -/
def combineTranscripts (results : List SpeechResult) : String :=
  String.intercalate " "
    ((results.filter (fun r => match r with
        | .legacy _ => false
        | .result _ => true)).map
      (fun r => match r with
        | .legacy s => s
        | .result t => t))

/-- Events interleaved by the single-threaded scheduler: the engine
finalizes a segment, or the user presses the record/stop button. -/
inductive CaptureEvent where
  | finalSeg (t : String)
  | clickToggle
  deriving Repr, DecidableEq

/-- Observable trace state: the hook's `results`, the rendered
`userAnswer`, the recording flag, and the `userAns` argument of every
evaluation call issued so far, in issue order. -/
structure TraceState where
  results : List SpeechResult
  userAnswer : String
  isRecording : Bool
  evalArgs : List String
  deriving Repr, DecidableEq

def initTrace : TraceState := ⟨[], "", false, []⟩

/-- One scheduler step.  A finalized segment is appended to `results` and
the aggregation effect recomputes `userAnswer` before the next user event.
The toggle click while recording runs `recordUserAnswer`'s `if` branch:
`stopSpeechToText()` and then immediately `generateResult(..., userAnswer)`
with the `userAnswer` its closure holds — the state rendered at click
time.  A click while idle starts capture.  A segment may still be
finalized after the stop click: the engine settles any pending interim
segment asynchronously (§6 of the interface contract). -/
def traceStep (st : TraceState) : CaptureEvent → TraceState
  | .finalSeg t =>
    let results2 := st.results ++ [.result t]
    { st with results := results2, userAnswer := combineTranscripts results2 }
  | .clickToggle =>
    if st.isRecording then
      { st with isRecording := false, evalArgs := st.evalArgs ++ [st.userAnswer] }
    else
      { st with isRecording := true }

def runTrace (evs : List CaptureEvent) : TraceState :=
  evs.foldl traceStep initTrace

/-! ## Helper lemmas -/

theorem resultsOf_eq_map (segs : List TranscriptSegment) :
    resultsOf segs =
      (segs.filter (fun s => s.isFinal)).map (fun s => SpeechResult.result s.text) := by
  induction segs with
  | nil => rfl
  | cons s rest ih =>
    cases hf : s.isFinal <;>
      simp [resultsOf, List.filterMap_cons, hf, List.filter_cons] at ih ⊢ <;>
      exact ih

theorem combineTranscripts_map_result (ts : List String) :
    combineTranscripts (ts.map SpeechResult.result) = String.intercalate " " ts := by
  simp only [combineTranscripts, List.filter_map, List.map_map]
  congr 1
  induction ts with
  | nil => rfl
  | cons t rest ih => simp [List.filter_cons, ih]

/-- In every reachable trace state, the rendered `userAnswer` is the
aggregation of the `results` delivered so far. -/
theorem runTrace_userAnswer_eq (evs : List CaptureEvent) :
    (runTrace evs).userAnswer = combineTranscripts (runTrace evs).results := by
  suffices h : ∀ st : TraceState, st.userAnswer = combineTranscripts st.results →
      (evs.foldl traceStep st).userAnswer =
        combineTranscripts (evs.foldl traceStep st).results by
    exact h initTrace rfl
  induction evs with
  | nil => intro st h; exact h
  | cons e rest ih =>
    intro st h
    apply ih
    cases e with
    | finalSeg t => simp [traceStep]
    | clickToggle =>
      simp only [traceStep]
      split <;> simp [h]

/-- A save holding a feedback result, with no persisted record matching
the key: the record is inserted and the state cleared. -/
theorem saveUserAnswer_no_match (u i : String) (q : Question) (st : CompState)
    (store : List AnswerRecord) (now : Nat) (a : AIResponse)
    (h1 : st.aiResult = some a)
    (hie : (store.filter (matchesKey u q.question i)).isEmpty = true) :
    saveUserAnswer u i q st store .ok now =
      ⟨⟨"", none, false⟩,
       store ++ [(⟨i, q.question, q.answer, st.userAnswer, a.feedback,
                  a.ratings, u, now⟩ : AnswerRecord)], .saved⟩ := by
  simp [saveUserAnswer, h1, hie]

/-- A save holding a feedback result, with some persisted record matching
the key: «Already Answered», nothing changes. -/
theorem saveUserAnswer_match (u i : String) (q : Question) (st : CompState)
    (store : List AnswerRecord) (now : Nat) (a : AIResponse)
    (h1 : st.aiResult = some a)
    (hie : (store.filter (matchesKey u q.question i)).isEmpty = false) :
    saveUserAnswer u i q st store .ok now = ⟨st, store, .alreadyAnswered⟩ := by
  simp [saveUserAnswer, h1, hie]

/-! ## Claims -/

/-- C4: for any ordered segment sequence, the transcript aggregation
equals the space-joined texts of exactly the final segments in arrival
order (non-final segments are excluded wherever they sit), and
recomputing the aggregation over the same sequence yields the same
string. -/
theorem c4_aggregation (segs : List TranscriptSegment) :
    combineTranscripts (resultsOf segs) =
      String.intercalate " " ((segs.filter (fun s => s.isFinal)).map (fun s => s.text)) ∧
    combineTranscripts (resultsOf segs) = combineTranscripts (resultsOf segs) := by
  refine ⟨?_, rfl⟩
  rw [resultsOf_eq_map]
  have hcomp : (segs.filter (fun s => s.isFinal)).map (fun s => SpeechResult.result s.text)
      = ((segs.filter (fun s => s.isFinal)).map (fun s => s.text)).map
          SpeechResult.result := by
    simp [List.map_map]
  rw [hcomp, combineTranscripts_map_result]

/-- C2 counterexample: `toggleRecording` invoked from a non-recording
state starts capture but does not clear the previous `userAnswer` and
`aiResult`, so a new recording can begin with both still holding their
prior values. -/
theorem c2_counterexample :
    (recordUserAnswerStart ⟨"old", some ⟨5, "fb"⟩, false⟩).isRecording = true ∧
    ¬((recordUserAnswerStart ⟨"old", some ⟨5, "fb"⟩, false⟩).userAnswer = "" ∧
      (recordUserAnswerStart ⟨"old", some ⟨5, "fb"⟩, false⟩).aiResult = none) := by
  decide

/-- C2 amended: `recordNewAnswer` always clears `userAnswer` to the empty
string and `aiResult` to `null` — independent of the prior state,
recording or not — both immediately and when capture restarts after the
grace delay; but `toggleRecording` invoked from a non-recording state
starts capture leaving both fields untouched. -/
theorem c2_amended (st : CompState) :
    (recordNewAnswerImmediate st).userAnswer = "" ∧
    (recordNewAnswerImmediate st).aiResult = none ∧
    (recordNewAnswerAfterDelay st).userAnswer = "" ∧
    (recordNewAnswerAfterDelay st).aiResult = none ∧
    (recordUserAnswerStart st).userAnswer = st.userAnswer ∧
    (recordUserAnswerStart st).aiResult = st.aiResult := by
  simp [recordNewAnswerImmediate, recordNewAnswerAfterDelay, recordUserAnswerStart]

/-- C9: when the persistence query or insert fails, the failed save
leaves `userAnswer` and `aiResult` (and the store) unchanged, so the user
can retry the save without redoing evaluation. -/
theorem c9_persist_failure_preserves (userId interviewId : String) (q : Question)
    (st : CompState) (store : List AnswerRecord) (env : PersistEnv) (now : Nat)
    (h : env ≠ .ok) :
    (saveUserAnswer userId interviewId q st store env now).state.userAnswer =
      st.userAnswer ∧
    (saveUserAnswer userId interviewId q st store env now).state.aiResult =
      st.aiResult ∧
    (saveUserAnswer userId interviewId q st store env now).store = store := by
  cases env with
  | ok => exact absurd rfl h
  | queryFails => cases hai : st.aiResult <;> simp [saveUserAnswer, hai]
  | insertFails =>
    cases hai : st.aiResult with
    | none => simp [saveUserAnswer, hai]
    | some a =>
      simp only [saveUserAnswer, hai]
      split <;> simp [hai]

theorem c9_persist_failure_preserves_witness :
    (PersistEnv.queryFails ≠ PersistEnv.ok) ∧
    ((saveUserAnswer "u" "i" ⟨"q", "a"⟩ ⟨"ans", some ⟨7, "fb"⟩, false⟩ []
        .queryFails 0).state.userAnswer =
      (⟨"ans", some ⟨7, "fb"⟩, false⟩ : CompState).userAnswer ∧
     (saveUserAnswer "u" "i" ⟨"q", "a"⟩ ⟨"ans", some ⟨7, "fb"⟩, false⟩ []
        .queryFails 0).state.aiResult =
      (⟨"ans", some ⟨7, "fb"⟩, false⟩ : CompState).aiResult ∧
     (saveUserAnswer "u" "i" ⟨"q", "a"⟩ ⟨"ans", some ⟨7, "fb"⟩, false⟩ []
        .queryFails 0).store = []) :=
  ⟨by decide,
   c9_persist_failure_preserves "u" "i" ⟨"q", "a"⟩ ⟨"ans", some ⟨7, "fb"⟩, false⟩ []
     .queryFails 0 (by decide)⟩

/-- C10: a save that completes with outcome `saved` clears `userAnswer`
to the empty string, clears `aiResult` to `null` and stops any active
recording; a save that completes with outcome `alreadyAnswered` leaves
the component state unchanged. -/
theorem c10_save_outcomes (userId interviewId : String) (q : Question)
    (st : CompState) (store : List AnswerRecord) (env : PersistEnv) (now : Nat) :
    ((saveUserAnswer userId interviewId q st store env now).outcome = .saved →
      (saveUserAnswer userId interviewId q st store env now).state.userAnswer = "" ∧
      (saveUserAnswer userId interviewId q st store env now).state.aiResult = none ∧
      (saveUserAnswer userId interviewId q st store env now).state.isRecording = false) ∧
    ((saveUserAnswer userId interviewId q st store env now).outcome = .alreadyAnswered →
      (saveUserAnswer userId interviewId q st store env now).state = st) := by
  cases hai : st.aiResult with
  | none => simp [saveUserAnswer, hai]
  | some a =>
    cases env with
    | ok =>
      simp only [saveUserAnswer, hai]
      split
      · simp
      · simp
    | queryFails => simp [saveUserAnswer, hai]
    | insertFails =>
      simp only [saveUserAnswer, hai]
      split
      · simp
      · simp

theorem c10_save_outcomes_witness :
    ((saveUserAnswer "u" "i" ⟨"q", "a"⟩ ⟨"ans", some ⟨7, "fb"⟩, true⟩ [] .ok
        0).state.userAnswer = "" ∧
     (saveUserAnswer "u" "i" ⟨"q", "a"⟩ ⟨"ans", some ⟨7, "fb"⟩, true⟩ [] .ok
        0).state.aiResult = none ∧
     (saveUserAnswer "u" "i" ⟨"q", "a"⟩ ⟨"ans", some ⟨7, "fb"⟩, true⟩ [] .ok
        0).state.isRecording = false) ∧
    (saveUserAnswer "u" "i" ⟨"q", "a"⟩ ⟨"ans", some ⟨7, "fb"⟩, true⟩
        [⟨"i", "q", "a", "old", "fb0", 3, "u", 0⟩] .ok 0).state =
      ⟨"ans", some ⟨7, "fb"⟩, true⟩ :=
  ⟨(c10_save_outcomes "u" "i" ⟨"q", "a"⟩ ⟨"ans", some ⟨7, "fb"⟩, true⟩ [] .ok 0).1
     (by decide),
   (c10_save_outcomes "u" "i" ⟨"q", "a"⟩ ⟨"ans", some ⟨7, "fb"⟩, true⟩
     [⟨"i", "q", "a", "old", "fb0", 3, "u", 0⟩] .ok 0).2 (by decide)⟩

/-- C5: with a feedback result in hand, a save finding a persisted record
that matches all three key fields returns «Already Answered» and performs
no write; and two consecutive saves with an identical key leave exactly
one matching record in the store. -/
theorem c5_save_idempotent (u i : String) (q : Question) (st st2 : CompState)
    (store : List AnswerRecord) (now now2 : Nat) (a a2 : AIResponse) :
    (st.aiResult = some a →
      store.filter (matchesKey u q.question i) ≠ [] →
      saveUserAnswer u i q st store .ok now = ⟨st, store, .alreadyAnswered⟩) ∧
    (st.aiResult = some a → st2.aiResult = some a2 →
      store.filter (matchesKey u q.question i) = [] →
      (saveUserAnswer u i q st store .ok now).outcome = .saved ∧
      (saveUserAnswer u i q st2
          (saveUserAnswer u i q st store .ok now).store .ok now2).outcome =
        .alreadyAnswered ∧
      (saveUserAnswer u i q st2
          (saveUserAnswer u i q st store .ok now).store .ok now2).store =
        (saveUserAnswer u i q st store .ok now).store ∧
      ((saveUserAnswer u i q st store .ok now).store.filter
          (matchesKey u q.question i)).length = 1) := by
  constructor
  · intro h1 hne
    have hie : (store.filter (matchesKey u q.question i)).isEmpty = false := by
      cases hfe : store.filter (matchesKey u q.question i) with
      | nil => exact absurd hfe hne
      | cons x xs => rfl
    exact saveUserAnswer_match u i q st store now a h1 hie
  · intro h1 h2 hemp
    have hie : (store.filter (matchesKey u q.question i)).isEmpty = true := by
      rw [hemp]; rfl
    have hsave := saveUserAnswer_no_match u i q st store now a h1 hie
    have hm : matchesKey u q.question i
        (⟨i, q.question, q.answer, st.userAnswer, a.feedback, a.ratings, u, now⟩ :
          AnswerRecord) = true := by
      simp [matchesKey]
    have hfilter : ((store ++ [(⟨i, q.question, q.answer, st.userAnswer, a.feedback,
          a.ratings, u, now⟩ : AnswerRecord)]).filter (matchesKey u q.question i)) =
        [(⟨i, q.question, q.answer, st.userAnswer, a.feedback, a.ratings, u, now⟩ :
          AnswerRecord)] := by
      rw [List.filter_append, hemp, List.nil_append, List.filter_cons]
      simp [hm]
    have hie2 : ((store ++ [(⟨i, q.question, q.answer, st.userAnswer, a.feedback,
          a.ratings, u, now⟩ : AnswerRecord)]).filter
            (matchesKey u q.question i)).isEmpty = false := by
      rw [hfilter]; rfl
    have hsave2 := saveUserAnswer_match u i q st2
      (store ++ [(⟨i, q.question, q.answer, st.userAnswer, a.feedback,
        a.ratings, u, now⟩ : AnswerRecord)]) now2 a2 h2 hie2
    refine ⟨by rw [hsave], ?_, ?_, ?_⟩
    · rw [hsave]; rw [hsave2]
    · rw [hsave]; rw [hsave2]
    · rw [hsave]
      simp only [hfilter, List.length_cons, List.length_nil]

theorem c5_save_idempotent_witness :
    ((⟨"ans", some ⟨7, "fb"⟩, false⟩ : CompState).aiResult = some ⟨7, "fb"⟩ ∧
     ([⟨"i", "q", "a", "old", "f0", 3, "u", 0⟩] :
        List AnswerRecord).filter (matchesKey "u" "q" "i") ≠ [] ∧
     saveUserAnswer "u" "i" ⟨"q", "a"⟩ ⟨"ans", some ⟨7, "fb"⟩, false⟩
        [⟨"i", "q", "a", "old", "f0", 3, "u", 0⟩] .ok 1 =
       ⟨⟨"ans", some ⟨7, "fb"⟩, false⟩, [⟨"i", "q", "a", "old", "f0", 3, "u", 0⟩],
        .alreadyAnswered⟩) ∧
    (([] : List AnswerRecord).filter (matchesKey "u" "q" "i") = [] ∧
     (saveUserAnswer "u" "i" ⟨"q", "a"⟩ ⟨"ans", some ⟨7, "fb"⟩, false⟩ [] .ok 1).outcome
        = .saved ∧
     (saveUserAnswer "u" "i" ⟨"q", "a"⟩ ⟨"ans2", some ⟨4, "fb2"⟩, false⟩
        (saveUserAnswer "u" "i" ⟨"q", "a"⟩ ⟨"ans", some ⟨7, "fb"⟩, false⟩ [] .ok
          1).store .ok 2).outcome = .alreadyAnswered ∧
     (saveUserAnswer "u" "i" ⟨"q", "a"⟩ ⟨"ans2", some ⟨4, "fb2"⟩, false⟩
        (saveUserAnswer "u" "i" ⟨"q", "a"⟩ ⟨"ans", some ⟨7, "fb"⟩, false⟩ [] .ok
          1).store .ok 2).store =
       (saveUserAnswer "u" "i" ⟨"q", "a"⟩ ⟨"ans", some ⟨7, "fb"⟩, false⟩ [] .ok
          1).store ∧
     ((saveUserAnswer "u" "i" ⟨"q", "a"⟩ ⟨"ans", some ⟨7, "fb"⟩, false⟩ [] .ok
          1).store.filter (matchesKey "u" "q" "i")).length = 1) :=
  ⟨⟨rfl, by decide,
    (c5_save_idempotent "u" "i" ⟨"q", "a"⟩ ⟨"ans", some ⟨7, "fb"⟩, false⟩
      ⟨"ans2", some ⟨4, "fb2"⟩, false⟩ [⟨"i", "q", "a", "old", "f0", 3, "u", 0⟩]
      1 2 ⟨7, "fb"⟩ ⟨4, "fb2"⟩).1 rfl (by decide)⟩,
   ⟨rfl,
    (c5_save_idempotent "u" "i" ⟨"q", "a"⟩ ⟨"ans", some ⟨7, "fb"⟩, false⟩
      ⟨"ans2", some ⟨4, "fb2"⟩, false⟩ [] 1 2 ⟨7, "fb"⟩ ⟨4, "fb2"⟩).2 rfl rfl rfl⟩⟩

/-- C1: when both the direct parse (tier 1) and the fence-stripped parse
(tier 2) fail, `cleanJsonResponse` locates the substring running from the
first opening brace to the first closing brace after it and parses that
substring; in particular the wrapped example yields the record with
ratings 3 and feedback «Needs work». -/
theorem c1_extraction_parse :
    (∀ (s : String) (sub : List Char),
      isErr (jsonParse s) = true →
      isErr (jsonParse (cleanText s)) = true →
      extractBrace s.data = some sub →
      cleanJsonResponse s =
        (jsonParse (String.mk sub)).mapError
          (fun m => ⟨s, "Invalid JSON format: " ++ m⟩)) ∧
    extractBrace
        ("Here is the result: \x7b\"ratings\":3,\"feedback\":\"Needs work\"\x7d Thanks!").data
      = some ("\x7b\"ratings\":3,\"feedback\":\"Needs work\"\x7d").data ∧
    cleanJsonResponse
        "Here is the result: \x7b\"ratings\":3,\"feedback\":\"Needs work\"\x7d Thanks!" =
      .ok (.obj [("ratings", .num 3), ("feedback", .str "Needs work")]) := by
  refine ⟨?_, by decide, by decide⟩
  intro s sub h1 h2 h3
  cases hp1 : jsonParse s with
  | ok v => rw [hp1] at h1; exact absurd h1 (by simp [isErr])
  | error e1 =>
    cases hp2 : jsonParse (cleanText s) with
    | ok v => rw [hp2] at h2; exact absurd h2 (by simp [isErr])
    | error e2 =>
      simp only [cleanJsonResponse, hp1, hp2, h3]
      cases hp3 : jsonParse (String.mk sub) <;> simp [Except.mapError, hp3]

theorem c1_extraction_parse_witness :
    (isErr (jsonParse
        "Here is the result: \x7b\"ratings\":3,\"feedback\":\"Needs work\"\x7d Thanks!")
      = true ∧
     isErr (jsonParse (cleanText
        "Here is the result: \x7b\"ratings\":3,\"feedback\":\"Needs work\"\x7d Thanks!"))
      = true) ∧
    cleanJsonResponse
        "Here is the result: \x7b\"ratings\":3,\"feedback\":\"Needs work\"\x7d Thanks!" =
      (jsonParse (String.mk
          ("\x7b\"ratings\":3,\"feedback\":\"Needs work\"\x7d").data)).mapError
        (fun m =>
          ⟨"Here is the result: \x7b\"ratings\":3,\"feedback\":\"Needs work\"\x7d Thanks!",
           "Invalid JSON format: " ++ m⟩) :=
  ⟨⟨by decide, by decide⟩,
   c1_extraction_parse.1
     "Here is the result: \x7b\"ratings\":3,\"feedback\":\"Needs work\"\x7d Thanks!"
     ("\x7b\"ratings\":3,\"feedback\":\"Needs work\"\x7d").data
     (by decide) (by decide) (by decide)⟩

/-- C7: when all three parser tiers fail, `cleanJsonResponse` fails with
a terminal parse failure that carries the original raw input text (the
text the source hands to its failure diagnostics); the plain-prose
example fails exactly this way. -/
theorem c7_terminal_failure :
    (∀ s : String,
      isErr (jsonParse s) = true →
      isErr (jsonParse (cleanText s)) = true →
      tier3Fails s = true →
      ∃ msg, cleanJsonResponse s = .error ⟨s, msg⟩) ∧
    cleanJsonResponse "not json at all" =
      .error ⟨"not json at all", "Invalid JSON format: Could not extract valid JSON"⟩ := by
  refine ⟨?_, by decide⟩
  intro s h1 h2 h3
  cases hp1 : jsonParse s with
  | ok v => rw [hp1] at h1; exact absurd h1 (by simp [isErr])
  | error e1 =>
    cases hp2 : jsonParse (cleanText s) with
    | ok v => rw [hp2] at h2; exact absurd h2 (by simp [isErr])
    | error e2 =>
      unfold tier3Fails at h3
      cases hx : extractBrace s.data with
      | none =>
        exact ⟨"Invalid JSON format: Could not extract valid JSON",
          by simp only [cleanJsonResponse, hp1, hp2, hx]⟩
      | some sub =>
        have h3s : isErr (jsonParse (String.mk sub)) = true := by
          rw [hx] at h3; exact h3
        cases hp3 : jsonParse (String.mk sub) with
        | ok v => rw [hp3] at h3s; exact absurd h3s (by simp [isErr])
        | error m =>
          exact ⟨"Invalid JSON format: " ++ m,
            by simp only [cleanJsonResponse, hp1, hp2, hx, hp3]⟩

theorem c7_terminal_failure_witness :
    (isErr (jsonParse "not json at all") = true ∧
     isErr (jsonParse (cleanText "not json at all")) = true ∧
     tier3Fails "not json at all" = true) ∧
    ∃ msg, cleanJsonResponse "not json at all" = .error ⟨"not json at all", msg⟩ :=
  ⟨⟨by decide, by decide, by decide⟩,
   c7_terminal_failure.1 "not json at all" (by decide) (by decide) (by decide)⟩

/-- C6: a parsed record that does not carry both a number-typed `ratings`
field and a string-typed `feedback` field makes `generateResult` fail
with the validation failure, a kind distinct from the parse failure, and
the value is not coerced; in particular a string-valued rating such as
«high» is rejected. -/
theorem c6_validation :
    (∀ (raw : String) (j : Json),
      cleanJsonResponse raw = .ok j →
      validShape j = false →
      generateResult raw = .error .invalidStructure) ∧
    (∀ pf, (EvalError.invalidStructure : EvalError) ≠ .parseFailure pf) ∧
    generateResult "\x7b\"ratings\":\"high\",\"feedback\":\"ok\"\x7d" =
      .error .invalidStructure := by
  refine ⟨?_, fun pf h => EvalError.noConfusion h, by decide⟩
  intro raw j hp hv
  simp only [generateResult, hp]
  split
  · rename_i r f heq heq2
    simp [validShape, heq, heq2] at hv
  · rfl

theorem c6_validation_witness :
    (cleanJsonResponse "\x7b\"ratings\":\"high\",\"feedback\":\"ok\"\x7d" =
      .ok (.obj [("ratings", .str "high"), ("feedback", .str "ok")]) ∧
     validShape (.obj [("ratings", .str "high"), ("feedback", .str "ok")]) = false) ∧
    generateResult "\x7b\"ratings\":\"high\",\"feedback\":\"ok\"\x7d" =
      .error .invalidStructure :=
  ⟨⟨by decide, by decide⟩,
   c6_validation.1 "\x7b\"ratings\":\"high\",\"feedback\":\"ok\"\x7d"
     (.obj [("ratings", .str "high"), ("feedback", .str "ok")])
     (by decide) (by decide)⟩

/-- C8 counterexample: the validation of `generateResult` checks only the
field types, not the rating range, so a service response rating the
answer 15 succeeds and yields a rating outside [1,10], refuting the claim
that every successful evaluation carries a rating in [1,10]. -/
theorem c8_counterexample :
    generateResult "\x7b\"ratings\":15,\"feedback\":\"ok\"\x7d" = .ok ⟨15, "ok"⟩ ∧
    ¬((1 : Rat) ≤ 15 ∧ (15 : Rat) ≤ 10) := by
  exact ⟨by decide, by decide⟩

/-- C8 amended: every `AIResponse` returned by a successful evaluation
has a number-typed rating and a string-typed feedback, taken verbatim
from the parsed record; the range [1,10] is requested in the prompt but
not enforced by the validation. -/
theorem c8_amended (raw : String) (resp : AIResponse)
    (h : generateResult raw = .ok resp) :
    ∃ j, cleanJsonResponse raw = .ok j ∧
      getField j "ratings" = some (.num resp.ratings) ∧
      getField j "feedback" = some (.str resp.feedback) := by
  cases hp : cleanJsonResponse raw with
  | error f =>
    simp only [generateResult, hp] at h
    exact Except.noConfusion h
  | ok j =>
    refine ⟨j, rfl, ?_⟩
    simp only [generateResult, hp] at h
    split at h
    · rename_i r f heq heq2
      injection h with h2
      subst h2
      exact ⟨heq, heq2⟩
    · exact Except.noConfusion h

theorem c8_amended_witness :
    generateResult "\x7b\"ratings\":7,\"feedback\":\"Good\"\x7d" = .ok ⟨7, "Good"⟩ ∧
    ∃ j, cleanJsonResponse "\x7b\"ratings\":7,\"feedback\":\"Good\"\x7d" = .ok j ∧
      getField j "ratings" = some (.num (7 : Rat)) ∧
      getField j "feedback" = some (.str "Good") :=
  ⟨by decide,
   c8_amended "\x7b\"ratings\":7,\"feedback\":\"Good\"\x7d" ⟨7, "Good"⟩ (by decide)⟩

/-- C3 counterexample: a final segment settled by the engine after the
stop click is aggregated into `userAnswer` but missing from the already
issued evaluation call, so the prompt used a partial aggregation — the
call's argument «hello» differs from the final aggregated answer
«hello world». -/
theorem c3_counterexample :
    (runTrace [.clickToggle, .finalSeg "hello", .clickToggle,
        .finalSeg "world"]).evalArgs = ["hello"] ∧
    (runTrace [.clickToggle, .finalSeg "hello", .clickToggle,
        .finalSeg "world"]).userAnswer = "hello world" ∧
    ("hello" : String) ≠ "hello world" := by
  decide

/-- C3 amended: the toggle click taken while recording stops capture and
issues the evaluation call in the same step, passing the aggregation of
exactly the final segments delivered before the click; segment delivery
itself never issues an evaluation call.  Segments finalized after the
stop click are thus excluded from the already-issued prompt, which can
therefore miss late-settled text. -/
theorem c3_amended (evs : List CaptureEvent)
    (h : (runTrace evs).isRecording = true) :
    (traceStep (runTrace evs) .clickToggle).isRecording = false ∧
    (traceStep (runTrace evs) .clickToggle).evalArgs =
      (runTrace evs).evalArgs ++ [combineTranscripts (runTrace evs).results] ∧
    (∀ t, (traceStep (runTrace evs) (.finalSeg t)).evalArgs =
      (runTrace evs).evalArgs) := by
  have hua := runTrace_userAnswer_eq evs
  refine ⟨?_, ?_, ?_⟩
  · simp [traceStep, h]
  · simp [traceStep, h, hua]
  · intro t; simp [traceStep]

theorem c3_amended_witness :
    (runTrace [.clickToggle, .finalSeg "hi"]).isRecording = true ∧
    ((traceStep (runTrace [.clickToggle, .finalSeg "hi"]) .clickToggle).isRecording
        = false ∧
     (traceStep (runTrace [.clickToggle, .finalSeg "hi"]) .clickToggle).evalArgs =
       (runTrace [.clickToggle, .finalSeg "hi"]).evalArgs ++
         [combineTranscripts (runTrace [.clickToggle, .finalSeg "hi"]).results] ∧
     (∀ t, (traceStep (runTrace [.clickToggle, .finalSeg "hi"]) (.finalSeg t)).evalArgs =
       (runTrace [.clickToggle, .finalSeg "hi"]).evalArgs)) :=
  ⟨by decide, c3_amended [.clickToggle, .finalSeg "hi"] (by decide)⟩

end RecordAnswer
